import Mathlib

/-!
Verification of the publication-and-replication-confirmation pipeline of
`artifact-swarm-pinner` (src/index.js) against its design specification.

The source is a single JavaScript file orchestrating: fetch newest CI
artifact → extract → validate workspace → select a postage batch → upload →
poll the upload tag until synced or stalled → write a feed (pointer) entry.
Each function of src/index.js that the claims touch is embedded below as an
executable Lean definition; external collaborators (the Bee storage node,
GitHub) are modelled as explicit inputs (snapshot streams, lists, and, where
the spec fixes their contract, functions recorded in a `BeeModel`).
-/

namespace SwarmPinner

/-- A snapshot of a Swarm upload tag as returned by `bee.retrieveTag`:
`split` is the total chunk count, `seen` and `synced` the progress counters
(src/index.js uses `tag.split`, `tag.seen`, `tag.synced`). -/
structure Tag where
  split : Nat
  seen : Nat
  synced : Nat
deriving DecidableEq, Repr

/-- The sync progress of a tag snapshot, `tag.seen + tag.synced`
(src/index.js line 122). -/
def prog (t : Tag) : Nat := t.seen + t.synced

/-- Constant `pollingTrials = 15` of `waitForFileSynced` (src/index.js line 114). -/
def pollingTrials : Nat := 15

/-- Constant `pollingTime = 500` (milliseconds) of `waitForFileSynced`
(src/index.js line 113); it does not influence the loop's logic. -/
def pollingTime : Nat := 500

/-- Result of a run of the polling loop of `waitForFileSynced`.
`synced k` / `timedOut k` record that exactly `k` calls to `retrieveTag`
were made; `fuelOut k` is an artifact of the fuel-based embedding (the JS
loop can run forever when progress keeps increasing). -/
inductive MonitorOutcome where
  | synced (polls : Nat)
  | timedOut (polls : Nat)
  | fuelOut (polls : Nat)
deriving DecidableEq, Repr

/-- Number of polls recorded in a `MonitorOutcome`. -/
def MonitorOutcome.polls : MonitorOutcome → Nat
  | .synced k => k
  | .timedOut k => k
  | .fuelOut k => k

/-- Whether a `MonitorOutcome` is the success outcome. -/
def MonitorOutcome.isSynced : MonitorOutcome → Bool
  | .synced _ => true
  | _ => false

/-- The polling loop of `waitForFileSynced` (src/index.js lines 120-138),
embedded over a stream `f` of tag snapshots (`f k` is the snapshot returned
by the `(k+1)`-th `bee.retrieveTag` call).  State: `k` counts polls made so
far, `i` is the JS loop variable, `p` the JS `syncProgress`.  Per iteration
the JS code: checks `i < pollingTrials`; fetches the tag; computes
`newSyncProgress = seen + synced`; sets `i = 0` when it exceeds
`syncProgress`; assigns `syncProgress`; breaks with `synced = true` when
`syncProgress >= tag.split`; otherwise calls `progressBar.setTotal(tag.split)`
and `progressBar.update(syncProgress)` (recorded here as an emitted
`(progress, total)` event), sleeps, and increments `i`.  `fuel` bounds the
number of polls the embedding unfolds. -/
def runAux (f : Nat → Tag) : Nat → Nat → Nat → Nat → MonitorOutcome × List (Nat × Nat)
  | fuel, k, i, p =>
    if pollingTrials ≤ i then (.timedOut k, [])
    else
      match fuel with
      | 0 => (.fuelOut k, [])
      | fuel' + 1 =>
        let t := f k
        let np := prog t
        let i2 := if p < np then 0 else i
        if t.split ≤ np then (.synced (k + 1), [])
        else
          let r := runAux f fuel' (k + 1) (i2 + 1) np
          (r.1, (np, t.split) :: r.2)

/-- The function `waitForFileSynced` of src/index.js (lines 112-147): run the
polling loop from its initial state `i = 0`, `syncProgress = 0`.  The first
component is the terminal outcome (`synced` prints success; `timedOut` leads
to `process.exit(1)`), the second the chronological list of
`(syncProgress, tag.split)` pairs passed to the progress bar inside the loop. -/
def waitForFileSynced (f : Nat → Tag) (fuel : Nat) : MonitorOutcome × List (Nat × Nat) :=
  runAux f fuel 0 0 0

example : (waitForFileSynced (fun _ => ⟨1000, 0, 0⟩) 20).1 = .timedOut 15 := by decide
example : (waitForFileSynced (fun _ => ⟨0, 0, 0⟩) 20).1 = .synced 1 := by decide
example : (waitForFileSynced (fun _ => ⟨1000, 1, 0⟩) 100).1 = .timedOut 15 := by decide

lemma runAux_of_timeout (f : Nat → Tag) (fuel k i p : Nat) (h : pollingTrials ≤ i) :
    runAux f fuel k i p = (.timedOut k, []) := by
  cases fuel <;> simp [runAux, h]

lemma runAux_succ (f : Nat → Tag) (fuel k i p : Nat) (h : i < pollingTrials) :
    runAux f (fuel + 1) k i p =
      (if (f k).split ≤ prog (f k) then ((.synced (k + 1) : MonitorOutcome), [])
       else
        let r := runAux f fuel (k + 1) ((if p < prog (f k) then 0 else i) + 1) (prog (f k))
        (r.1, (prog (f k), (f k).split) :: r.2)) := by
  rw [runAux]
  simp [Nat.not_le.mpr h]

/-- When the stream of snapshots from poll `k` on has non-increasing progress
that never reaches the (current) split, and the current `syncProgress` bound
`p` dominates the next observed progress, the loop counts `i` up without ever
resetting and times out after exactly `pollingTrials - i` further polls. -/
lemma runAux_stalled (f : Nat → Tag)
    (hanti : ∀ m, prog (f (m + 1)) ≤ prog (f m))
    (hbelow : ∀ m, prog (f m) < (f m).split) :
    ∀ fuel i k p, prog (f k) ≤ p → pollingTrials - i ≤ fuel →
      (runAux f fuel k i p).1 = .timedOut (k + (pollingTrials - i)) := by
  intro fuel
  induction fuel with
  | zero =>
    intro i k p _ hfuel
    have hi : pollingTrials ≤ i := by omega
    rw [runAux_of_timeout f 0 k i p hi]
    have : pollingTrials - i = 0 := by omega
    simp [this]
  | succ fuel ih =>
    intro i k p hp hfuel
    by_cases hi : pollingTrials ≤ i
    · rw [runAux_of_timeout f _ k i p hi]
      have : pollingTrials - i = 0 := by omega
      simp [this]
    · push_neg at hi
      rw [runAux_succ f fuel k i p hi]
      have hnb : ¬ (f k).split ≤ prog (f k) := Nat.not_le.mpr (hbelow k)
      have hnr : ¬ p < prog (f k) := Nat.not_lt.mpr hp
      simp only [hnb, if_false, hnr]
      have := ih (i + 1) (k + 1) (prog (f k)) (hanti k) (by omega)
      simp only [this]
      congr 1
      omega

/-- If the loop, started in state `(k, i, p)`, ends in `timedOut k'`, then at
least `pollingTrials - i` polls were still made: `k + (pollingTrials - i) ≤ k'`.
Timeout requires the loop variable to count all the way up to `pollingTrials`,
and any observed progress increase sends it back to `0`. -/
lemma runAux_timeout_lower_bound (f : Nat → Tag) :
    ∀ fuel k i p k', (runAux f fuel k i p).1 = .timedOut k' →
      k + (pollingTrials - i) ≤ k' := by
  intro fuel
  induction fuel with
  | zero =>
    intro k i p k' h
    by_cases hi : pollingTrials ≤ i
    · rw [runAux_of_timeout f 0 k i p hi] at h
      simp at h
      omega
    · rw [runAux] at h
      simp [Nat.not_le.mpr (Nat.not_le.mp hi)] at h
  | succ fuel ih =>
    intro k i p k' h
    by_cases hi : pollingTrials ≤ i
    · rw [runAux_of_timeout f _ k i p hi] at h
      simp at h
      omega
    · push_neg at hi
      rw [runAux_succ f fuel k i p hi] at h
      by_cases hs : (f k).split ≤ prog (f k)
      · simp [hs] at h
      · simp only [hs, if_false] at h
        have := ih (k + 1) ((if p < prog (f k) then 0 else i) + 1) (prog (f k)) k' h
        by_cases hr : p < prog (f k) <;> simp [hr] at this <;> omega

/-- The tag snapshot stream used to exercise the stall-budget reset: progress
is constantly `1`, far below `split = 1000`, so the very first poll observes
an increase (from the initial `syncProgress = 0` to `1`) and every later poll
observes no increase. -/
def stallCexStream : Nat → Tag := fun _ => ⟨1000, 1, 0⟩

/-- C1, counterexample.  On `stallCexStream` the first poll observes a
progress increase (`0 < 1`), yet the run times out after `15` polls in total,
i.e. after only `14` further polls with no increase — fewer than the
`pollingTrials = 15` post-increase polls the claim requires before a timeout.
The JS loop sets `i = 0` on an increase but the `for` loop's `i++` still
runs, leaving a budget of `14`, not `15`. -/
theorem stall_reset_cex :
    0 < prog (stallCexStream 0) ∧
      (waitForFileSynced stallCexStream 100).1 = .timedOut 15 ∧
      15 - (0 + 1) < pollingTrials := by
  refine ⟨by decide, by decide, by decide⟩

/-- C1, amended.  A poll that observes a progress increase resets the stall
budget to `pollingTrials - 1 = 14` further polls: if the loop is live
(`i < pollingTrials`) and poll `k` observes an increase (`p < prog (f k)`),
then a timeout can only be reported after at least `pollingTrials` total
polls counting poll `k`, i.e. after at least `14` further consecutive polls
with no increase. -/
theorem stall_reset_budget (f : Nat → Tag) (fuel k i p k' : Nat)
    (hi : i < pollingTrials) (hinc : p < prog (f k))
    (hend : (runAux f fuel k i p).1 = .timedOut k') :
    k + pollingTrials ≤ k' := by
  cases fuel with
  | zero =>
    rw [runAux] at hend
    simp [Nat.not_le.mpr hi] at hend
  | succ fuel =>
    rw [runAux_succ f fuel k i p hi] at hend
    by_cases hs : (f k).split ≤ prog (f k)
    · simp [hs] at hend
    · simp only [hs, if_false, hinc, if_true] at hend
      have := runAux_timeout_lower_bound f fuel (k + 1) (0 + 1) (prog (f k)) k' hend
      have hpt : pollingTrials = 15 := rfl
      omega

/-- C1, witness for `stall_reset_budget` at the concrete stream
`stallCexStream`, poll `0`, initial state. -/
theorem stall_reset_budget_witness : 0 + pollingTrials ≤ 15 :=
  stall_reset_budget stallCexStream 100 0 0 0 15 (by decide) (by decide) (by decide)

/-- C2.  When observed progress never increases from one poll to the next and
never reaches the current split, the monitor times out after exactly
`pollingTrials = 15` polls — neither earlier nor later (the outcome records
the exact number of `retrieveTag` calls made). -/
theorem monitor_timeout_after_exactly_15 (f : Nat → Tag) (fuel : Nat)
    (hanti : ∀ m, prog (f (m + 1)) ≤ prog (f m))
    (hbelow : ∀ m, prog (f m) < (f m).split)
    (hfuel : pollingTrials ≤ fuel) :
    (waitForFileSynced f fuel).1 = .timedOut pollingTrials := by
  obtain ⟨fuel', rfl⟩ : ∃ fuel', fuel = fuel' + 1 := by
    cases fuel with
    | zero => exact absurd hfuel (by decide)
    | succ n => exact ⟨n, rfl⟩
  unfold waitForFileSynced
  rw [runAux_succ f fuel' 0 0 0 (by decide)]
  have hnb : ¬ (f 0).split ≤ prog (f 0) := Nat.not_le.mpr (hbelow 0)
  simp only [hnb, if_false, ite_self]
  have := runAux_stalled f hanti hbelow fuel' 1 1 (prog (f 0)) (hanti 0)
    (by have : pollingTrials = 15 := rfl; omega)
  simp only [this]
  rfl

/-- C2, witness: progress constantly `0` with `split = 1000` times out after
exactly `15` polls. -/
theorem monitor_timeout_after_exactly_15_witness :
    (waitForFileSynced (fun _ => ⟨1000, 0, 0⟩) 15).1 = .timedOut pollingTrials :=
  monitor_timeout_after_exactly_15 (fun _ => ⟨1000, 0, 0⟩) 15
    (fun _ => Nat.le_refl _)
    (fun _ => show prog (⟨1000, 0, 0⟩ : Tag) < (⟨1000, 0, 0⟩ : Tag).split by decide)
    (by decide)

/-- C3.  Whenever the loop is live (`i < pollingTrials`, any remaining stall
budget) and the freshly fetched snapshot of poll `k` satisfies
`seen + synced >= split`, the monitor ends with `synced` immediately, after
this very poll. -/
theorem monitor_synced_immediately (f : Nat → Tag) (fuel k i p : Nat)
    (hi : i < pollingTrials) (hfuel : 0 < fuel)
    (hsat : (f k).split ≤ prog (f k)) :
    (runAux f fuel k i p).1 = .synced (k + 1) := by
  obtain ⟨fuel', rfl⟩ : ∃ fuel', fuel = fuel' + 1 := by
    cases fuel with
    | zero => exact absurd hfuel (by decide)
    | succ n => exact ⟨n, rfl⟩
  rw [runAux_succ f fuel' k i p hi]
  simp [hsat]

/-- C3, witness: with `split = 0` the snapshot of the very first poll already
satisfies `seen + synced >= split`, so the monitor succeeds after one poll. -/
theorem monitor_synced_immediately_witness :
    (waitForFileSynced (fun _ => ⟨0, 0, 0⟩) 1).1 = .synced (0 + 1) :=
  monitor_synced_immediately (fun _ => ⟨0, 0, 0⟩) 1 0 0 0 (by decide) (by decide) (by decide)

lemma runAux_polls_lower (f : Nat → Tag) :
    ∀ fuel k i p,
      k + (cond (runAux f fuel k i p).1.isSynced 1 0) ≤ (runAux f fuel k i p).1.polls := by
  intro fuel
  induction fuel with
  | zero =>
    intro k i p
    by_cases hi : pollingTrials ≤ i
    · rw [runAux_of_timeout f 0 k i p hi]
      simp [MonitorOutcome.isSynced, MonitorOutcome.polls]
    · rw [runAux]
      simp [hi, MonitorOutcome.isSynced, MonitorOutcome.polls]
  | succ fuel ih =>
    intro k i p
    by_cases hi : pollingTrials ≤ i
    · rw [runAux_of_timeout f _ k i p hi]
      simp [MonitorOutcome.isSynced, MonitorOutcome.polls]
    · push_neg at hi
      rw [runAux_succ f fuel k i p hi]
      by_cases hs : (f k).split ≤ prog (f k)
      · simp [hs, MonitorOutcome.isSynced, MonitorOutcome.polls]
      · simp only [hs, if_false]
        have := ih (k + 1) ((if p < prog (f k) then 0 else i) + 1) (prog (f k))
        cases hb : (runAux f fuel (k + 1) ((if p < prog (f k) then 0 else i) + 1) (prog (f k))).1.isSynced <;>
          simp [hb] at this ⊢ <;> omega

/-- The progress-bar events of a loop run started at poll `k` are exactly one
`(prog (f m), (f m).split)` pair per executed poll `m`, except that a poll
ending in `synced` emits none (the JS `break` precedes the bar update). -/
lemma runAux_events (f : Nat → Tag) :
    ∀ fuel k i p,
      (runAux f fuel k i p).2 =
        (List.range ((runAux f fuel k i p).1.polls - k -
            cond (runAux f fuel k i p).1.isSynced 1 0)).map
          (fun j => (prog (f (k + j)), (f (k + j)).split)) := by
  intro fuel
  induction fuel with
  | zero =>
    intro k i p
    by_cases hi : pollingTrials ≤ i
    · rw [runAux_of_timeout f 0 k i p hi]
      simp [MonitorOutcome.isSynced, MonitorOutcome.polls]
    · rw [runAux]
      simp [hi, MonitorOutcome.isSynced, MonitorOutcome.polls]
  | succ fuel ih =>
    intro k i p
    by_cases hi : pollingTrials ≤ i
    · rw [runAux_of_timeout f _ k i p hi]
      simp [MonitorOutcome.isSynced, MonitorOutcome.polls]
    · push_neg at hi
      rw [runAux_succ f fuel k i p hi]
      by_cases hs : (f k).split ≤ prog (f k)
      · simp [hs, MonitorOutcome.isSynced, MonitorOutcome.polls]
      · simp only [hs, if_false]
        have hlow := runAux_polls_lower f fuel (k + 1) ((if p < prog (f k) then 0 else i) + 1)
          (prog (f k))
        have hev := ih (k + 1) ((if p < prog (f k) then 0 else i) + 1) (prog (f k))
        set r := runAux f fuel (k + 1) ((if p < prog (f k) then 0 else i) + 1) (prog (f k)) with hr
        have hn : r.1.polls - k - cond r.1.isSynced 1 0 =
            (r.1.polls - (k + 1) - cond r.1.isSynced 1 0) + 1 := by
          cases hb : r.1.isSynced <;> simp [hb] at hlow ⊢ <;> omega
        simp only [hn, hev, List.range_succ_eq_map, List.map_cons, List.map_map]
        congr 1
        apply List.map_congr_left
        intro j _
        have hj : k + 1 + j = k + (j + 1) := by omega
        simp [Function.comp, hj]

/-- C9, counterexample.  A run whose first poll already completes replication
(`split = 0`, progress `5`) makes one poll and notifies the progress bar zero
times: the completing poll emits no `(progress, total)` update because the JS
`break` happens before `progressBar.update`. -/
theorem progress_events_cex :
    (waitForFileSynced (fun _ => ⟨0, 5, 0⟩) 1).1 = .synced 1 ∧
      (waitForFileSynced (fun _ => ⟨0, 5, 0⟩) 1).2 = [] :=
  ⟨by decide, by decide⟩

/-- C9, amended.  On every poll except one that completes replication, the
progress bar is notified with the pair `(current progress, current split)`;
a completing poll emits no notification.  Formally, the emitted event list of
a run is exactly one `(prog (f j), (f j).split)` pair per executed poll `j`,
minus the final poll when the outcome is `synced`. -/
theorem progress_events_spec (f : Nat → Tag) (fuel : Nat) :
    (waitForFileSynced f fuel).2 =
      (List.range ((waitForFileSynced f fuel).1.polls -
          cond (waitForFileSynced f fuel).1.isSynced 1 0)).map
        (fun j => (prog (f j), (f j).split)) := by
  have := runAux_events f fuel 0 0 0
  unfold waitForFileSynced
  simpa using this

/-- A postage batch (storage allocation) as returned by
`bee.getAllPostageBatch` (src/index.js line 67): identifier, remaining
time-to-live, usability flag. -/
structure PostageBatch where
  batchID : String
  batchTTL : Int
  usable : Bool
deriving DecidableEq, Repr

/-- The filter condition `b.batchTTL > 0 && b.usable` of src/index.js line 67. -/
def batchEligible (b : PostageBatch) : Bool := decide (0 < b.batchTTL) && b.usable

/-- The batch selection of `upload` (src/index.js line 67):
`getAllPostageBatch().filter(b => b.batchTTL > 0 && b.usable)[0]`, i.e. the
head of the filtered list. -/
def selectBatch (l : List PostageBatch) : Option PostageBatch :=
  (l.filter batchEligible).head?

/-- Batch selection together with the guard of src/index.js lines 68-70:
`if (!batch) throw new Error('No usable postage batch found')`. -/
def requireBatch (l : List PostageBatch) : Except String PostageBatch :=
  match selectBatch l with
  | some b => .ok b
  | none => .error "No usable postage batch found"

example :
    selectBatch [⟨"a", 0, true⟩, ⟨"b", 100, true⟩] = some ⟨"b", 100, true⟩ := by decide

/-- C4.  Batch selection returns the first element of the allocation list
with `ttl > 0` and `usable = true` (`List.find?` — order preserving, first
match wins), and fails with the no-usable-resource error precisely when no
element of the list satisfies both conditions. -/
theorem select_first_usable (l : List PostageBatch) :
    selectBatch l = l.find? batchEligible ∧
      (requireBatch l = .error "No usable postage batch found" ↔
        ∀ b ∈ l, ¬(0 < b.batchTTL ∧ b.usable = true)) := by
  have hfind : selectBatch l = l.find? batchEligible := by
    unfold selectBatch
    induction l with
    | nil => rfl
    | cons a t ih =>
      by_cases ha : batchEligible a = true
      · simp [List.filter, List.find?, ha]
      · simp only [List.filter, List.find?, Bool.not_eq_true] at ha ⊢
        rw [ha]
        exact ih
  refine ⟨hfind, ?_⟩
  unfold requireBatch
  rw [hfind]
  constructor
  · intro h b hb
    cases hf : l.find? batchEligible with
    | some c => simp [hf] at h
    | none =>
      have := List.find?_eq_none.mp hf b hb
      simp [batchEligible] at this
      intro hc
      exact absurd (this hc.1) (by simp [hc.2])
  · intro h
    have : l.find? batchEligible = none := by
      apply List.find?_eq_none.mpr
      intro b hb
      have := h b hb
      simp [batchEligible]
      intro ht
      by_contra hu
      simp at hu
      exact this ⟨ht, hu⟩
    rw [this]

/-- C4, witness at the spec's example list: the first allocation has
`ttl = 0` and is skipped, the second is selected. -/
theorem select_first_usable_witness :
    selectBatch [⟨"a", 0, true⟩, ⟨"b", 100, true⟩] =
        List.find? batchEligible [⟨"a", 0, true⟩, ⟨"b", 100, true⟩] ∧
      (requireBatch [⟨"a", 0, true⟩, ⟨"b", 100, true⟩] =
          .error "No usable postage batch found" ↔
        ∀ b ∈ [(⟨"a", 0, true⟩ : PostageBatch), ⟨"b", 100, true⟩],
          ¬(0 < b.batchTTL ∧ b.usable = true)) :=
  select_first_usable [⟨"a", 0, true⟩, ⟨"b", 100, true⟩]

/-- A GitHub Actions artifact as consumed by `getArtifactId`
(src/index.js lines 31-38): numeric id and creation timestamp (the
`new Date(...)` value of `created_at`, modelled as a number). -/
structure Artifact where
  id : Nat
  created_at : Nat
deriving DecidableEq, Repr

/-- The comparator of src/index.js line 37,
`(a, b) => new Date(b.created_at) - new Date(a.created_at)`: a stable sort
with this comparator keeps `a` before `b` exactly when
`b.created_at ≤ a.created_at`. -/
def newerFirst (a b : Artifact) : Bool := decide (b.created_at ≤ a.created_at)

/-- The selection of `getArtifactId` (src/index.js lines 31-38): throw when
the artifact list is empty, otherwise sort descending by creation timestamp
(stable, as JS `Array.prototype.sort`) and take `[0]?.id`. -/
def getArtifactId (l : List Artifact) : Except String (Option Nat) :=
  if l.isEmpty then .error "No artifacts found"
  else .ok (((l.mergeSort newerFirst).head?).map (·.id))

example : getArtifactId [] = .error "No artifacts found" := rfl

/-- C5.  Artifact selection fails with the precondition error exactly when
the candidate list is empty; on a non-empty list it returns the id of a
candidate with maximum creation timestamp. -/
theorem artifact_newest_selected (l : List Artifact) :
    (l = [] → getArtifactId l = .error "No artifacts found") ∧
      (l ≠ [] →
        ∃ a, a ∈ l ∧ getArtifactId l = .ok (some a.id) ∧
          ∀ b ∈ l, b.created_at ≤ a.created_at) := by
  constructor
  · intro h
    subst h
    rfl
  · intro h
    have hperm := List.mergeSort_perm l newerFirst
    have hpair := @List.sorted_mergeSort Artifact newerFirst
      (fun a b c hab hbc => by
        simp [newerFirst] at hab hbc ⊢
        omega)
      (fun a b => by
        simp [newerFirst]
        omega)
      l
    cases hm : l.mergeSort newerFirst with
    | nil =>
      exfalso
      have := hperm.length_eq
      rw [hm] at this
      simp at this
      exact h (List.eq_nil_of_length_eq_zero this.symm)
    | cons a t =>
      refine ⟨a, ?_, ?_, ?_⟩
      · exact hperm.mem_iff.mp (by simp [hm])
      · unfold getArtifactId
        rw [if_neg (by simpa using h), hm]
        rfl
      · intro b hb
        have hbm : b ∈ a :: t := by
          rw [← hm]
          exact hperm.mem_iff.mpr hb
        rw [hm] at hpair
        rcases List.mem_cons.mp hbm with rfl | hbt
        · exact Nat.le_refl _
        · have := (List.pairwise_cons.mp hpair).1 b hbt
          simpa [newerFirst] using this

/-- C5, witness at a two-element list whose second artifact is newer. -/
theorem artifact_newest_selected_witness :
    ∃ a, a ∈ [(⟨1, 10⟩ : Artifact), ⟨2, 20⟩] ∧
      getArtifactId [⟨1, 10⟩, ⟨2, 20⟩] = .ok (some a.id) ∧
      ∀ b ∈ [(⟨1, 10⟩ : Artifact), ⟨2, 20⟩], b.created_at ≤ a.created_at :=
  (artifact_newest_selected [⟨1, 10⟩, ⟨2, 20⟩]).2 (by decide)

/-- Feed topics, owner addresses and Swarm references are hex strings in
bee-js; modelled as strings. -/
abbrev Topic := String

/-- Owner (Ethereum) addresses, as returned by `wallet.getAddressString()`. -/
abbrev Address := String

/-- Swarm content references. -/
abbrev Reference := String

/-- The wallet decrypted by `Wallet.fromV3` (src/index.js line 97): a private
key and its derived address. -/
structure Wallet where
  privateKey : String
  address : String
deriving DecidableEq, Repr

/-- A signed pointer (feed) entry written by `writer.upload`. -/
structure FeedEntry where
  topic : Topic
  owner : Address
  payload : Reference
deriving DecidableEq, Repr

/-- The state of the feed held by the storage network: the list of entries
written so far, in order. -/
abbrev FeedState := List FeedEntry

/-- Modelled from the spec: the bee-js feed operations used by `writeFeed`
and `updateFeedAndPrint` are external collaborator calls whose code is not
part of this repository.  Per §4.2 and §3 of the spec, `makeFeedTopic`
derives a topic deterministically from the configured name, and the
pointer-manifest address is "deterministically derived from (owner address,
topic)" — so `feedManifestAddr` is a function of topic and owner alone.
`feedUpdateRef` gives the reference returned for the `n`-th written entry. -/
structure BeeModel where
  makeFeedTopic : String → Topic
  feedManifestAddr : Topic → Address → Reference
  feedUpdateRef : Topic → Address → Nat → Reference

set_option linter.unusedVariables false in
/-- `bee.createFeedManifest(stamp, 'sequence', topic, owner)` (src/index.js
line 107).  The postage stamp pays for the write; per the spec contract the
derived address depends on the topic and owner only. -/
def createFeedManifest (bee : BeeModel) (stamp : String) (topic : Topic)
    (owner : Address) : Reference :=
  bee.feedManifestAddr topic owner

/-- The feed writer `bee.makeFeedWriter('sequence', topic, privateKey)`
(src/index.js line 106), modelled by the data that determines its writes:
the topic and the owner address derived from the private key. -/
structure FeedWriter where
  topic : Topic
  owner : Address
deriving DecidableEq, Repr

/-- `bee.makeFeedWriter('sequence', topic, wallet.getPrivateKey())`. -/
def makeFeedWriter (topic : Topic) (w : Wallet) : FeedWriter :=
  ⟨topic, w.address⟩

/-- `writer.upload(stamp, chunkReference)` (src/index.js line 108).  Modelled
from the spec: appends exactly one pointer entry to the feed and returns its
reference. -/
def feedWriterUpload (bee : BeeModel) (st : FeedState) (wr : FeedWriter)
    (chunkReference : Reference) : Reference × FeedState :=
  (bee.feedUpdateRef wr.topic wr.owner st.length,
    st ++ [⟨wr.topic, wr.owner, chunkReference⟩])

/-- The function `writeFeed` of src/index.js (lines 105-110): make a feed
writer, create the feed manifest, upload the chunk reference as a new feed
entry; returns `(reference, manifest)` and the new feed state. -/
def writeFeed (bee : BeeModel) (st : FeedState) (stamp : String) (wallet : Wallet)
    (topic : Topic) (chunkReference : Reference) :
    (Reference × Reference) × FeedState :=
  let writer := makeFeedWriter topic wallet
  let manifest := createFeedManifest bee stamp topic wallet.address
  let up := feedWriterUpload bee st writer chunkReference
  ((up.1, manifest), up.2)

/-- The function `updateFeedAndPrint` of src/index.js (lines 96-103), modulo
logging: derive the topic from the configured name with
`bee.makeFeedTopic(TOPIC)` and call `writeFeed`. -/
def updateFeed (bee : BeeModel) (st : FeedState) (stamp : String) (wallet : Wallet)
    (topicName : String) (chunkReference : Reference) :
    (Reference × Reference) × FeedState :=
  writeFeed bee st stamp wallet (bee.makeFeedTopic topicName) chunkReference

/-- C8.  The pointer-manifest address produced by the feed-update path is a
pure function of the owner address and the topic: two derivations with the
same wallet and topic name yield the same manifest, for any two feed states
(any number of pointer entries written in between), stamps, and uploaded
content references. -/
theorem manifest_derivation_pure (bee : BeeModel) (st₁ st₂ : FeedState)
    (stamp₁ stamp₂ : String) (wallet : Wallet) (topicName : String)
    (ref₁ ref₂ : Reference) :
    (updateFeed bee st₁ stamp₁ wallet topicName ref₁).1.2 =
      (updateFeed bee st₂ stamp₂ wallet topicName ref₂).1.2 := rfl

/-- The options object passed to `bee.uploadFilesFromDirectory`
(src/index.js lines 74-82). -/
structure UploadOptions where
  indexDocument : String
  errorDocument : String
  tag : Option Nat
  pin : Bool
  encrypt : Bool
  deferred : Bool
  redundancyLevel : Option Nat
deriving DecidableEq, Repr

/-- Observable side effects of a run of `main`, in program order: workspace
cleanup, artifact fetch/extract, tag creation, directory upload, feed
manifest creation and feed (pointer) entry write. -/
inductive Effect where
  | rmOutDir
  | fetchArtifactList
  | downloadAndExtract (artifactId : Option Nat)
  | createTag
  | uploadDir (batchID : String) (opts : UploadOptions)
  | createManifest (topic : Topic) (owner : Address)
  | writeFeedEntry (topic : Topic) (owner : Address) (payload : Reference)
deriving DecidableEq, Repr

/-- How a run of `main` ends: normally (`done`, main resolves to "done"),
via `process.exit(1)`, or by an uncaught thrown error (which also terminates
the node process with a nonzero status).  `fuelOut` is the artifact of the
bounded embedding of the polling loop. -/
inductive MainResult where
  | done
  | exited (code : Nat) (msg : String)
  | threw (msg : String)
  | fuelOut
deriving DecidableEq, Repr

/-- The inputs of one run of src/index.js: the responses of the external
collaborators (GitHub artifact list, filesystem checks after extraction,
postage batches, tag uid, upload reference, tag snapshot stream, decrypted
wallet) and the configuration (`TOPIC`). -/
structure Env where
  artifacts : List Artifact
  outDirIsDirectory : Bool
  hasIndexHtml : Bool
  batches : List PostageBatch
  tagUid : Nat
  uploadRef : Reference
  polls : Nat → Tag
  fuel : Nat
  wallet : Wallet
  topicName : String
  bee : BeeModel

/-- The function `upload` of src/index.js (lines 66-94) together with the
`updateFeedAndPrint` call it ends with: select a postage batch (throwing when
none is usable), create a tag, upload the workspace directory with the fixed
manifest options, run `waitForFileSynced`, then write the feed entry. -/
def uploadStep (env : Env) : MainResult × List Effect :=
  match requireBatch env.batches with
  | .error msg => (.threw msg, [])
  | .ok batch =>
    let opts : UploadOptions :=
      ⟨"index.html", "404.html", some env.tagUid, true, false, true, none⟩
    let effs := [Effect.createTag, Effect.uploadDir batch.batchID opts]
    match (waitForFileSynced env.polls env.fuel).1 with
    | .timedOut _ => (.exited 1 "Data syncing timeout", effs)
    | .fuelOut _ => (.fuelOut, effs)
    | .synced _ =>
      let topic := env.bee.makeFeedTopic env.topicName
      (.done,
        effs ++ [Effect.createManifest topic env.wallet.address,
          Effect.writeFeedEntry topic env.wallet.address env.uploadRef])

/-- The function `main` of src/index.js (lines 157-178): clear the workspace,
fetch the newest artifact id (a thrown error when none exist), download and
extract, exit 1 unless the workspace directory exists, exit 1 unless it
contains `index.html`, then run `upload`. -/
def mainRun (env : Env) : MainResult × List Effect :=
  match getArtifactId env.artifacts with
  | .error msg => (.threw msg, [Effect.rmOutDir, Effect.fetchArtifactList])
  | .ok artifactId =>
    let pre := [Effect.rmOutDir, Effect.fetchArtifactList,
      Effect.downloadAndExtract artifactId]
    if !env.outDirIsDirectory then
      (.exited 1 "Directory ./artifact does not exist", pre)
    else if !env.hasIndexHtml then
      (.exited 1 "No index.html in ./artifact", pre)
    else
      let r := uploadStep env
      (r.1, pre ++ r.2)

/-- C6.  A run whose extracted workspace lacks `index.html` exits with code 1
at the precondition check: no directory upload is ever attempted and no feed
(pointer) entry is written. -/
theorem missing_index_aborts (env : Env)
    (hart : env.artifacts ≠ [])
    (hdir : env.outDirIsDirectory = true)
    (hidx : env.hasIndexHtml = false) :
    (mainRun env).1 = .exited 1 "No index.html in ./artifact" ∧
      (∀ b opts, Effect.uploadDir b opts ∉ (mainRun env).2) ∧
      (∀ t o r, Effect.writeFeedEntry t o r ∉ (mainRun env).2) := by
  have hne : env.artifacts.isEmpty = false := by
    cases hv : env.artifacts with
    | nil => exact absurd hv hart
    | cons a t => rfl
  have hok : getArtifactId env.artifacts =
      .ok (((env.artifacts.mergeSort newerFirst).head?).map (·.id)) := by
    unfold getArtifactId
    rw [hne]
    rfl
  unfold mainRun
  rw [hok]
  simp [hdir, hidx]

/-- A concrete environment whose workspace lacks `index.html`. -/
def envNoIndex : Env where
  artifacts := [⟨1, 10⟩]
  outDirIsDirectory := true
  hasIndexHtml := false
  batches := [⟨"b", 100, true⟩]
  tagUid := 7
  uploadRef := "ref"
  polls := fun _ => ⟨0, 0, 0⟩
  fuel := 1
  wallet := ⟨"pk", "addr"⟩
  topicName := "topic"
  bee := ⟨fun s => s, fun t o => t ++ o, fun t o n => t ++ o ++ toString n⟩

/-- C6, witness at `envNoIndex`. -/
theorem missing_index_aborts_witness :
    (mainRun envNoIndex).1 = .exited 1 "No index.html in ./artifact" ∧
      (∀ b opts, Effect.uploadDir b opts ∉ (mainRun envNoIndex).2) ∧
      (∀ t o r, Effect.writeFeedEntry t o r ∉ (mainRun envNoIndex).2) :=
  missing_index_aborts envNoIndex (by decide) rfl rfl

lemma uploadStep_upload_mem (env : Env) (b : String) (o : UploadOptions)
    (h : Effect.uploadDir b o ∈ (uploadStep env).2) :
    ∃ batch, selectBatch env.batches = some batch ∧ b = batch.batchID ∧
      o = ⟨"index.html", "404.html", some env.tagUid, true, false, true, none⟩ := by
  unfold uploadStep at h
  unfold requireBatch at h
  cases hsel : selectBatch env.batches with
  | none => rw [hsel] at h; simp at h
  | some batch =>
    rw [hsel] at h
    refine ⟨batch, rfl, ?_⟩
    cases hw : (waitForFileSynced env.polls env.fuel).1 <;>
      rw [hw] at h <;> simp at h <;> exact ⟨h.1, h.2⟩

lemma mainRun_upload_mem (env : Env) (b : String) (o : UploadOptions)
    (h : Effect.uploadDir b o ∈ (mainRun env).2) :
    Effect.uploadDir b o ∈ (uploadStep env).2 := by
  unfold mainRun at h
  cases hg : getArtifactId env.artifacts with
  | error msg => rw [hg] at h; simp at h
  | ok aid =>
    rw [hg] at h
    by_cases hd : env.outDirIsDirectory
    · by_cases hx : env.hasIndexHtml
      · simp [hd, hx] at h ⊢
        exact h
      · simp [hd, hx] at h
    · simp [hd] at h

/-- C7.  First half: a run that reaches resource selection and finds no
eligible postage batch throws the no-usable-resource error, and neither
creates an upload tag nor attempts an upload.  Second half: an upload effect
only ever occurs with a successfully selected batch, whose id it uses. -/
theorem no_batch_aborts_before_upload :
    (∀ env : Env, env.artifacts ≠ [] → env.outDirIsDirectory = true →
      env.hasIndexHtml = true → selectBatch env.batches = none →
      (mainRun env).1 = .threw "No usable postage batch found" ∧
        Effect.createTag ∉ (mainRun env).2 ∧
        ∀ b o, Effect.uploadDir b o ∉ (mainRun env).2) ∧
    (∀ (env : Env) (b : String) (o : UploadOptions),
      Effect.uploadDir b o ∈ (mainRun env).2 →
      ∃ batch, selectBatch env.batches = some batch ∧ b = batch.batchID) := by
  constructor
  · intro env hart hdir hidx hsel
    have hne : env.artifacts.isEmpty = false := by
      cases hv : env.artifacts with
      | nil => exact absurd hv hart
      | cons a t => rfl
    have hok : getArtifactId env.artifacts =
        .ok (((env.artifacts.mergeSort newerFirst).head?).map (·.id)) := by
      unfold getArtifactId
      rw [hne]
      rfl
    have hup : uploadStep env = (.threw "No usable postage batch found", []) := by
      unfold uploadStep requireBatch
      rw [hsel]
    unfold mainRun
    rw [hok]
    simp [hdir, hidx, hup]
  · intro env b o h
    obtain ⟨batch, hsel, hb, _⟩ := uploadStep_upload_mem env b o (mainRun_upload_mem env b o h)
    exact ⟨batch, hsel, hb⟩

/-- A concrete environment with a valid workspace but no usable postage
batch (the only batch has `ttl = 0`). -/
def envNoBatch : Env where
  artifacts := [⟨1, 10⟩]
  outDirIsDirectory := true
  hasIndexHtml := true
  batches := [⟨"expired", 0, true⟩]
  tagUid := 7
  uploadRef := "ref"
  polls := fun _ => ⟨0, 0, 0⟩
  fuel := 1
  wallet := ⟨"pk", "addr"⟩
  topicName := "topic"
  bee := ⟨fun s => s, fun t o => t ++ o, fun t o n => t ++ o ++ toString n⟩

/-- C7, witness at `envNoBatch`. -/
theorem no_batch_aborts_before_upload_witness :
    (mainRun envNoBatch).1 = .threw "No usable postage batch found" ∧
      Effect.createTag ∉ (mainRun envNoBatch).2 ∧
      ∀ b o, Effect.uploadDir b o ∉ (mainRun envNoBatch).2 :=
  no_batch_aborts_before_upload.1 envNoBatch (by decide) rfl rfl rfl

/-- C10.  Every upload performed by the pipeline uses the fixed manifest
configuration of src/index.js lines 74-82 — entry document `index.html`,
error document `404.html`, pin enabled, encryption disabled, deferred
enabled, redundancy unset — whatever the run's inputs are. -/
theorem upload_options_fixed (env : Env) (b : String) (o : UploadOptions)
    (h : Effect.uploadDir b o ∈ (mainRun env).2) :
    o.indexDocument = "index.html" ∧ o.errorDocument = "404.html" ∧
      o.pin = true ∧ o.encrypt = false ∧ o.deferred = true ∧
      o.redundancyLevel = none := by
  obtain ⟨batch, _, _, rfl⟩ := uploadStep_upload_mem env b o (mainRun_upload_mem env b o h)
  exact ⟨rfl, rfl, rfl, rfl, rfl, rfl⟩

/-- A concrete environment that runs the pipeline to completion: one
artifact, a valid workspace, a usable batch, and a tag stream that reports
full replication on the first poll. -/
def envFull : Env where
  artifacts := [⟨1, 10⟩]
  outDirIsDirectory := true
  hasIndexHtml := true
  batches := [⟨"live", 100, true⟩]
  tagUid := 7
  uploadRef := "ref"
  polls := fun _ => ⟨0, 0, 0⟩
  fuel := 1
  wallet := ⟨"pk", "addr"⟩
  topicName := "topic"
  bee := ⟨fun s => s, fun t o => t ++ o, fun t o n => t ++ o ++ toString n⟩

lemma envFull_uploads :
    Effect.uploadDir "live"
        ⟨"index.html", "404.html", some 7, true, false, true, none⟩ ∈
      (mainRun envFull).2 := by
  have hok : getArtifactId envFull.artifacts = .ok (some 1) := by
    unfold getArtifactId
    simp [envFull, List.mergeSort_singleton]
  unfold mainRun
  rw [hok]
  simp only [envFull]
  unfold uploadStep requireBatch selectBatch
  simp [batchEligible, waitForFileSynced, runAux, pollingTrials, prog]

/-- C10, witness at `envFull`: the upload effect it performs carries the
fixed options. -/
theorem upload_options_fixed_witness :
    (⟨"index.html", "404.html", some 7, true, false, true, none⟩ :
        UploadOptions).indexDocument = "index.html" ∧
      (⟨"index.html", "404.html", some 7, true, false, true, none⟩ :
        UploadOptions).errorDocument = "404.html" ∧
      (⟨"index.html", "404.html", some 7, true, false, true, none⟩ :
        UploadOptions).pin = true ∧
      (⟨"index.html", "404.html", some 7, true, false, true, none⟩ :
        UploadOptions).encrypt = false ∧
      (⟨"index.html", "404.html", some 7, true, false, true, none⟩ :
        UploadOptions).deferred = true ∧
      (⟨"index.html", "404.html", some 7, true, false, true, none⟩ :
        UploadOptions).redundancyLevel = none :=
  upload_options_fixed envFull "live"
    ⟨"index.html", "404.html", some 7, true, false, true, none⟩ envFull_uploads

end SwarmPinner
